import Mathlib

/-!
Verification of the Buenos Aires Properties crawl-and-persist pipeline.

This file is a shallow embedding of the pipeline's core logic:

* `src/db.py` — the Store: `calculate_price_dollars`, `upsert_property`,
  `update_property_filtered_status`.
* `src/argenprop/argenprop_improved.py` — the CrawlEngine: the retry/backoff
  fetch primitive `getdata_with_retry`, checkpoint save/load, the resume
  decision, the per-listing type coercion and persist+archive step, and the
  main pagination loop including its `finally` cleanup of the progress file.

Python `datetime` values are modelled as abstract `Nat` instants; the current
time is threaded in explicitly wherever the source calls `datetime.now()`.
Python floats are modelled as rationals (`ℚ`), and Python's `round` (banker's
rounding, half to even) as `pyRound`. Fallible operations return `Except`.
The SQLite `properties` table is a list of rows plus an autoincrement counter.
-/

/-- Python's built-in `round` to an integer: nearest integer, ties to even.
`Rat.floor` is used (rather than the `⌊·⌋` type-class) so the definition
evaluates by kernel reduction; `Rat.floor_def` identifies the two. -/
def pyRound (q : ℚ) : Int :=
  let f := q.floor
  let r := q - (f : ℚ)
  if r < 1/2 then f
  else if 1/2 < r then f + 1
  else if f % 2 = 0 then f else f + 1

/-- `PESO_TO_USD = 1500` from `src/db.py` line 18. -/
def PESO_TO_USD : ℚ := 1500

/-- One row of the SQLite `properties` table (`src/db.py` lines 47-70).
`archived_path` is the column added by the repository's migration and read by
`analysis/map_properties.py`; it is absent from the `CREATE TABLE` in
`src/db.py` but needed by the crawler's `db.update_archived_path` call. -/
structure PropRow where
  id : Nat
  address : String
  currency : Option String
  price : Option ℚ
  price_dollars : Option Int
  expenses : Option ℚ
  size : Option ℚ
  bedrooms : Option Int
  bathrooms : Option Int
  listing_url : Option String
  website : Option String
  url : Option String
  description : Option String
  timestamp : Nat
  last_updated : Nat
  query_id : Option Int
  price_total_usd : Option ℚ
  is_filtered : Bool
  filtered_at : Option Nat
  archived_path : Option String
  deriving DecidableEq, Repr

/-- The `properties` table: rows plus the AUTOINCREMENT counter for `id`. -/
structure DB where
  rows : List PropRow
  nextId : Nat
  deriving DecidableEq, Repr

/-- The `property_data` dict handed to `upsert_property`: each `.get(key)`
is `none` when the key is missing. A missing or empty (falsy) `price` is
folded into `none`, matching the `if not price` truthiness test in
`calculate_price_dollars` and the empty-string price produced by
`parse_listing` when a listing has no price span. -/
structure PropertyData where
  address : Option String
  currency : Option String
  price : Option ℚ
  expenses : Option ℚ
  size : Option ℚ
  bedrooms : Option Int
  bathrooms : Option Int
  listing_url : Option String
  website : Option String
  url : Option String
  description : Option String
  timestamp : Option Nat
  deriving DecidableEq, Repr

/-- `calculate_price_dollars` (`src/db.py` lines 127-135).  `if not price`
is true for a missing price, an empty-string price and a zero price, so all
of these yield `None`; otherwise pesos (`currency == '$'`) are divided by
`PESO_TO_USD` and rounded, any other currency is rounded directly. -/
def calculate_price_dollars (currency : Option String) (price : Option ℚ) : Option Int :=
  match price with
  | none => none
  | some p =>
    if p = 0 then none
    else if currency = some "$" then some (pyRound (p / PESO_TO_USD))
    else some (pyRound p)

/-- The row written by the UPDATE branch of `upsert_property`
(`src/db.py` lines 165-196): all mutable fields from the incoming dict,
recomputed `price_dollars`, `last_updated = now`, new `query_id`; everything
else (in particular `timestamp`, `is_filtered`, `filtered_at`,
`price_total_usd`, `archived_path`) is untouched. -/
def updateRow (pd : PropertyData) (query_id : Int) (now : Nat) (r : PropRow) : PropRow :=
  { r with
    currency := pd.currency
    price := pd.price
    price_dollars := calculate_price_dollars pd.currency pd.price
    expenses := pd.expenses
    size := pd.size
    bedrooms := pd.bedrooms
    bathrooms := pd.bathrooms
    listing_url := pd.listing_url
    website := pd.website
    url := pd.url
    description := pd.description
    last_updated := now
    query_id := some query_id }

/-- The row inserted by the INSERT branch of `upsert_property`
(`src/db.py` lines 211-232): `timestamp = property_data.get('timestamp', now)`,
`last_updated = now`; `price_total_usd`, `is_filtered`, `filtered_at` and
`archived_path` take their column defaults. -/
def insertRow (pd : PropertyData) (addr : String) (query_id : Int) (now : Nat)
    (newId : Nat) : PropRow :=
  { id := newId
    address := addr
    currency := pd.currency
    price := pd.price
    price_dollars := calculate_price_dollars pd.currency pd.price
    expenses := pd.expenses
    size := pd.size
    bedrooms := pd.bedrooms
    bathrooms := pd.bathrooms
    listing_url := pd.listing_url
    website := pd.website
    url := pd.url
    description := pd.description
    timestamp := pd.timestamp.getD now
    last_updated := now
    query_id := some query_id
    price_total_usd := none
    is_filtered := false
    filtered_at := none
    archived_path := none }

/-- `upsert_property` (`src/db.py` lines 138-240).  Raises `ValueError` when
the address is missing or empty (falsy); otherwise looks the address up,
updates in place when found (`is_new = False`) and inserts otherwise
(`is_new = True`).  Returns `(is_new, property_id)` together with the new
table state. -/
def upsert_property (db : DB) (pd : PropertyData) (query_id : Int) (now : Nat) :
    Except String (Bool × Nat × DB) :=
  match pd.address with
  | none => .error "Property must have an address"
  | some addr =>
    if addr = "" then .error "Property must have an address"
    else
      match db.rows.find? (fun r => r.address = addr) with
      | some existing =>
        .ok (false, existing.id,
          { db with rows := db.rows.map (fun r =>
              if r.address = addr then updateRow pd query_id now r else r) })
      | none =>
        .ok (true, db.nextId,
          { rows := db.rows ++ [insertRow pd addr query_id now db.nextId]
            nextId := db.nextId + 1 })

/-- `update_property_filtered_status` (`src/db.py` lines 277-296).  When
`is_filtered` is true it sets `is_filtered = 1`, `filtered_at = now` and
`price_total_usd`; when false its UPDATE statement sets only
`is_filtered = 0` and `price_total_usd`, leaving `filtered_at` as it was. -/
def update_property_filtered_status (db : DB) (property_id : Nat) (is_filtered : Bool)
    (price_total_usd : Option ℚ) (now : Nat) : DB :=
  if is_filtered then
    { db with rows := db.rows.map (fun r =>
        if r.id = property_id then
          { r with is_filtered := true, filtered_at := some now,
                   price_total_usd := price_total_usd }
        else r) }
  else
    { db with rows := db.rows.map (fun r =>
        if r.id = property_id then
          { r with is_filtered := false, price_total_usd := price_total_usd }
        else r) }

/-- Modelled from the spec: `SetArchivedPath(id, path)` (spec §4.1).  The
crawler calls `db.update_archived_path(prop_id, archived_path)`
(`src/argenprop/argenprop_improved.py` line 287) but the function's definition
is not among the sources under `src/` (only this caller and the
`archived_path` readers in `analysis/map_properties.py` are); following the
spec it stores the relative path on the record with the given id. -/
def update_archived_path (db : DB) (property_id : Nat) (path : String) : DB :=
  { db with rows := db.rows.map (fun r =>
      if r.id = property_id then { r with archived_path := some path } else r) }

/-! ## CrawlEngine: `src/argenprop/argenprop_improved.py` -/

/-- Result of one run of `getdata_with_retry`'s `for attempt in range(max_retries)`
loop: the parsed page, the exception re-raised after the last attempt, or the
`return None` reached only when `max_retries == 0`. -/
inductive RetryResult (α : Type) where
  | success (page : α)
  | raised
  | noneReturn
  deriving DecidableEq

/-- The body of `getdata_with_retry` (`src/argenprop/argenprop_improved.py`
lines 90-119), parameterised by the outcome of each fetch attempt
(`outcomes i = some page` means attempt `i` succeeds).  Arguments: current
attempt index `i`, attempts left to run, current `retry_delay`.  Returns the
result, the list of delays slept (in order), and the number of fetch attempts
made.  On a failure with `attempt < max_retries - 1` (i.e. more than one
attempt left) it sleeps `retry_delay` and doubles it; on a failure at the last
attempt it re-raises. -/
def retryLoop (outcomes : Nat → Option α) : Nat → Nat → Nat → RetryResult α × List Nat × Nat
  | _, 0, _ => (.noneReturn, [], 0)
  | i, left + 1, d =>
    match outcomes i with
    | some pg => (.success pg, [], 1)
    | none =>
      if left = 0 then (.raised, [], 1)
      else
        let r := retryLoop outcomes (i + 1) left (d * 2)
        (r.1, d :: r.2.1, r.2.2 + 1)

/-- `getdata_with_retry(url, max_retries, retry_delay)`: run the attempt loop
from attempt 0. -/
def getdata_with_retry (outcomes : Nat → Option α) (max_retries : Nat) (retry_delay : Nat) :
    RetryResult α × List Nat × Nat :=
  retryLoop outcomes 0 max_retries retry_delay

/-- A numeric field of a parsed listing as produced by `parse_listing`: the
literal string `'N/A'` when the regex did not match, or a digit string
(standing for the number it denotes) when it did. -/
inductive RawVal where
  | NA
  | num (n : Nat)
  deriving DecidableEq, Repr

/-- The dict produced by `parse_listing` (`src/argenprop/argenprop_improved.py`
lines 127-163) for one listing fragment.  `price` is `none` for the falsy
empty string stored when the listing has no price span; `description` is
`None` when the info paragraph is missing. -/
structure RawListing where
  address : String
  expenses : RawVal
  size : RawVal
  bedrooms : RawVal
  bathrooms : RawVal
  currency : String
  price : Option ℚ
  listing_url : String
  website : String
  url : String
  description : Option String
  timestamp : Nat
  deriving DecidableEq, Repr

/-- The type-coercion block of `main` (`src/argenprop/argenprop_improved.py`
lines 253-272) applied to a parsed listing, yielding the dict passed to
`db.upsert_property`: `'N/A'` expenses become `0`, `'N/A'` size/bedrooms/
bathrooms become `None`, everything else is converted to its numeric type. -/
def coerceListing (L : RawListing) : PropertyData :=
  { address := some L.address
    currency := some L.currency
    price := L.price
    expenses := match L.expenses with | .NA => some 0 | .num n => some (n : ℚ)
    size := match L.size with | .NA => none | .num n => some (n : ℚ)
    bedrooms := match L.bedrooms with | .NA => none | .num n => some (n : Int)
    bathrooms := match L.bathrooms with | .NA => none | .num n => some (n : Int)
    listing_url := some L.listing_url
    website := some L.website
    url := some L.url
    description := L.description
    timestamp := some L.timestamp }

/-- One iteration of the per-listing loop body (`src/argenprop/
argenprop_improved.py` lines 250-296): coerce, upsert, and when the record is
new consult the Archiver (`arch pid` is the collaborator's result for property
`pid`) and store the returned path via `db.update_archived_path`.  An
archiving failure (`none`) only logs a warning.  Returns the new table state,
`is_new` and the property id; an upsert error propagates as `.error` (caught
one level up by the listing loop's `except`). -/
def processListing (arch : Nat → Option String) (db : DB) (L : RawListing)
    (query_id : Int) (now : Nat) : Except String (DB × Bool × Nat) :=
  match upsert_property db (coerceListing L) query_id now with
  | .error e => .error e
  | .ok (isNew, pid, db1) =>
    if isNew then
      match arch pid with
      | some path => .ok (update_archived_path db1 pid path, true, pid)
      | none => .ok (db1, true, pid)
    else .ok (db1, false, pid)

/-- The `for listing in listings` loop (`src/argenprop/argenprop_improved.py`
lines 249-296): each listing is processed in order; an exception from one
listing is logged and that listing skipped (`except ... continue`), leaving
the table untouched for it.  Returns the final table and the
`(new_count, updated_count)` pair. -/
def processPage (arch : Nat → Option String) (query_id : Int) (now : Nat) :
    DB → List RawListing → DB × Nat × Nat
  | db, [] => (db, 0, 0)
  | db, L :: rest =>
    match processListing arch db L query_id now with
    | .error _ => processPage arch query_id now db rest
    | .ok (db1, isNew, _) =>
      let r := processPage arch query_id now db1 rest
      if isNew then (r.1, r.2.1 + 1, r.2.2) else (r.1, r.2.1, r.2.2 + 1)

/-- The persisted checkpoint written by `save_progress`
(`src/argenprop/argenprop_improved.py` lines 66-76). -/
structure Progress where
  last_page : Nat
  last_url : String
  query_id : Int
  timestamp : Nat
  deriving DecidableEq, Repr

/-- A fetched and parsed page, as far as the crawl loop inspects it: its
listing fragments and the optional `Siguiente` next-page link resolved by
`getnextpage`. -/
structure Page where
  listings : List RawListing
  next : Option String
  deriving DecidableEq, Repr

/-- How the crawl loop terminated. -/
inductive ExitKind where
  | noMorePages
  | maxPages
  | errorExit
  | fuelOut
  deriving DecidableEq, Repr

/-- `if args.max_pages and page_num >= args.max_pages` (`src/argenprop/
argenprop_improved.py` line 312): `None` and `0` are falsy. -/
def maxPagesReached (max_pages : Option Nat) (page_num : Nat) : Bool :=
  match max_pages with
  | some m => m != 0 && page_num ≥ m
  | none => false

/-- Outcome of the `while True` crawl loop: the progress-file state at the
moment the loop exits, the table, the exit kind, the urls fetched in order,
and `total_listings` (the new-record count reported at run end). -/
structure LoopResult where
  ckpt : Option Progress
  db : DB
  exit : ExitKind
  fetched : List String
  totalNew : Nat
  deriving DecidableEq, Repr

/-- The `while True` loop of `main` (`src/argenprop/argenprop_improved.py`
lines 235-329), at page granularity.  `fetch url = none` models
`getdata_with_retry` exhausting its retries and raising, in which case the
`except` handler saves the checkpoint for the current page and re-raises
(exit `errorExit`).  On a fetched page the listings are processed (their
individual exceptions are caught inside the listing loop and cannot reach
this level), the checkpoint for the current page is saved, then the max-pages
test and the next-page test decide between stopping and continuing.  `fuel`
bounds the unbounded `while True` for termination; `fuelOut` marks an
artificial cut-off. -/
def crawlLoop (fetch : String → Option Page) (arch : Nat → Option String)
    (max_pages : Option Nat) (query_id : Int) (now : Nat) :
    Nat → String → Nat → Option Progress → DB → Nat → LoopResult
  | 0, _, _, ck, db, tot => ⟨ck, db, .fuelOut, [], tot⟩
  | fuel + 1, url, page_num, _, db, tot =>
    match fetch url with
    | none => ⟨some ⟨page_num, url, query_id, now⟩, db, .errorExit, [url], tot⟩
    | some pg =>
      let res := processPage arch query_id now db pg.listings
      let ck1 : Option Progress := some ⟨page_num, url, query_id, now⟩
      let tot1 := tot + res.2.1
      if maxPagesReached max_pages page_num then
        ⟨ck1, res.1, .maxPages, [url], tot1⟩
      else
        match pg.next with
        | none => ⟨ck1, res.1, .noMorePages, [url], tot1⟩
        | some nextUrl =>
          let r := crawlLoop fetch arch max_pages query_id now fuel nextUrl
            (page_num + 1) ck1 res.1 tot1
          { r with fetched := url :: r.fetched }

/-- The resume decision of `main` (`src/argenprop/argenprop_improved.py`
lines 214-230): a loaded checkpoint whose `query_id` equals the selected
query's id yields `(last_url, last_page)`; otherwise the run starts fresh at
page 1 with the fresh query url and any existing progress file is removed.
Returns (start url, start page, progress-file state after the decision). -/
def resumeDecision (progressFile : Option Progress) (query_id : Int) (fresh_url : String) :
    String × Nat × Option Progress :=
  match progressFile with
  | some p =>
    if p.query_id = query_id then (p.last_url, p.last_page, some p)
    else (fresh_url, 1, none)
  | none => (fresh_url, 1, none)

/-- Observable outcome of one invocation of `main` from the resume decision
onward.  `ckptAtLoopExit` is the progress-file state at the moment the
`while True` loop terminates (normally or by exception); `finalCkpt` is its
state after the `finally` block (lines 331-335), which removes the file
whenever it exists — on every exit path. -/
structure RunResult where
  startUrl : String
  startPage : Nat
  ckptAfterResume : Option Progress
  ckptAtLoopExit : Option Progress
  finalCkpt : Option Progress
  db : DB
  exit : ExitKind
  fetched : List String
  totalNew : Nat
  deriving DecidableEq, Repr

/-- `main` from the resume decision through the crawl loop and its `finally`
block (`src/argenprop/argenprop_improved.py` lines 214-335). -/
def runMain (fetch : String → Option Page) (arch : Nat → Option String)
    (max_pages : Option Nat) (query_id : Int) (now : Nat) (fresh_url : String)
    (progressFile : Option Progress) (db0 : DB) (fuel : Nat) : RunResult :=
  let st := resumeDecision progressFile query_id fresh_url
  let r := crawlLoop fetch arch max_pages query_id now fuel st.1 st.2.1 st.2.2 db0 0
  { startUrl := st.1
    startPage := st.2.1
    ckptAfterResume := st.2.2
    ckptAtLoopExit := r.ckpt
    finalCkpt := none
    db := r.db
    exit := r.exit
    fetched := r.fetched
    totalNew := r.totalNew }


/-! ## General lemmas -/

lemma rat_floor_eq_floor (q : ℚ) : q.floor = ⌊q⌋ := by
  rw [Rat.floor_def, Rat.floor_def']

lemma pyRound_nearest (q : ℚ) : |((pyRound q : ℤ) : ℚ) - q| ≤ 1/2 := by
  have h1 : ((q.floor : ℤ) : ℚ) ≤ q := by rw [rat_floor_eq_floor]; exact Int.floor_le q
  have h2 : q < ((q.floor : ℤ) : ℚ) + 1 := by
    rw [rat_floor_eq_floor]; exact Int.lt_floor_add_one q
  simp only [pyRound]
  split_ifs with ha hb hc
  · rw [abs_le]; constructor <;> linarith
  · rw [abs_le]; push_cast; constructor <;> linarith
  · rw [abs_le]; constructor <;> linarith
  · rw [abs_le]; push_cast; constructor <;> linarith

/-- C6: `calculate_price_dollars` converts a nonzero price with the fixed rate
1500: pesos (`currency == "$"`) are divided by the rate and rounded, any other
currency is rounded directly; rounding lands within one half of the true
value (nearest integer, ties to even), and the spec's two examples hold
(pesos 150000 ↦ 100 and USD 100.4 ↦ 100).  Amended from the claim: a missing,
empty or zero `price` yields a null `price_dollars` (the `if not price`
truthiness guard), not a rounded zero. -/
theorem c6_price_normalization (c : Option String) (p : ℚ) (hp : p ≠ 0) :
    calculate_price_dollars c (some p)
        = some (if c = some "$" then pyRound (p / PESO_TO_USD) else pyRound p) ∧
    (∀ q : ℚ, |((pyRound q : ℤ) : ℚ) - q| ≤ 1/2) ∧
    calculate_price_dollars (some "$") (some 150000) = some 100 ∧
    calculate_price_dollars (some "USD") (some (502/5)) = some 100 := by
  refine ⟨?_, pyRound_nearest, by with_unfolding_all rfl, by with_unfolding_all rfl⟩
  simp only [calculate_price_dollars, if_neg hp]
  split_ifs <;> rfl

/-- Witness for C6 at currency `"$"`, price 150000. -/
theorem c6_price_normalization_witness :
    (150000 : ℚ) ≠ 0 ∧
    (calculate_price_dollars (some "$") (some 150000)
        = some (if some "$" = some "$" then pyRound ((150000 : ℚ) / PESO_TO_USD)
                else pyRound 150000) ∧
      (∀ q : ℚ, |((pyRound q : ℤ) : ℚ) - q| ≤ 1/2) ∧
      calculate_price_dollars (some "$") (some 150000) = some 100 ∧
      calculate_price_dollars (some "USD") (some (502/5)) = some 100) :=
  ⟨by norm_num, c6_price_normalization (some "$") 150000 (by norm_num)⟩

/-- C6 counterexample: for currency `"$"` and price `0` the code returns
`None`, not the claim's "price divided by the rate and rounded" (which would
be `0`): the `if not price` guard short-circuits falsy prices. -/
theorem c6_price_zero_counterexample :
    calculate_price_dollars (some "$") (some 0) = none ∧
    some (pyRound ((0 : ℚ) / PESO_TO_USD)) = some (0 : ℤ) ∧
    (none : Option ℤ) ≠ some 0 := by
  refine ⟨by with_unfolding_all rfl, by with_unfolding_all rfl, by simp⟩

/-- C10 (amended): `update_property_filtered_status` always writes
`price_total_usd` and `is_filtered` on the targeted record; `filtered_at` is
set to the current time when `passed` is true, but when `passed` is false the
UPDATE statement omits `filtered_at`, leaving its previous value in place
(the claim's "set to null" does not hold).  Other records are untouched. -/
theorem c10_set_filter_status (db : DB) (pid : Nat) (passed : Bool)
    (val : Option ℚ) (now : Nat) :
    List.Forall₂ (fun r rr : PropRow =>
        (r.id = pid → rr.price_total_usd = val ∧ rr.is_filtered = passed ∧
          (passed = true → rr.filtered_at = some now) ∧
          (passed = false → rr.filtered_at = r.filtered_at)) ∧
        (r.id ≠ pid → rr = r))
      db.rows (update_property_filtered_status db pid passed val now).rows := by
  cases passed
  · simp only [update_property_filtered_status, Bool.false_eq_true, if_false,
      List.forall₂_map_right_iff]
    rw [List.forall₂_same]
    intro r _
    refine ⟨fun hid => ?_, fun hid => ?_⟩
    · rw [if_pos hid]
      simp
    · rw [if_neg hid]
  · simp only [update_property_filtered_status, if_true,
      List.forall₂_map_right_iff]
    rw [List.forall₂_same]
    intro r _
    refine ⟨fun hid => ?_, fun hid => ?_⟩
    · rw [if_pos hid]
      simp
    · rw [if_neg hid]

/-- C10 counterexample: a record whose `filtered_at` is `5` keeps that value
after `update_property_filtered_status(id, False, price)` — the code does not
null it as the claim states. -/
theorem c10_filtered_at_counterexample :
    (update_property_filtered_status
        ⟨[{ id := 1, address := "a", currency := none, price := none,
            price_dollars := none, expenses := none, size := none,
            bedrooms := none, bathrooms := none, listing_url := none,
            website := none, url := none, description := none, timestamp := 0,
            last_updated := 0, query_id := none, price_total_usd := some 500,
            is_filtered := true, filtered_at := some 5,
            archived_path := none }], 2⟩
        1 false (some 800) 9).rows.map (fun r => r.filtered_at) = [some 5] ∧
    (some 5 : Option Nat) ≠ none := by
  refine ⟨by with_unfolding_all rfl, by simp⟩

lemma retryLoop_succ_eq (out : Nat → Option α) (i left d : Nat) :
    retryLoop out i (left + 1) d
      = match out i with
        | some pg => (.success pg, [], 1)
        | none =>
          if left = 0 then (.raised, [], 1)
          else
            let r := retryLoop out (i + 1) left (d * 2)
            (r.1, d :: r.2.1, r.2.2 + 1) := rfl

lemma retryLoop_allFail (out : Nat → Option α) :
    ∀ (left i d : Nat), 0 < left → (∀ j, j < left → out (i + j) = none) →
      retryLoop out i left d
        = (.raised, (List.range (left - 1)).map (fun k => d * 2 ^ k), left) := by
  intro left
  induction left with
  | zero => intro i d h _; exact absurd h (lt_irrefl 0)
  | succ l ih =>
    intro i d _ hout
    have h0 : out i = none := by simpa using hout 0 (Nat.succ_pos l)
    cases l with
    | zero => simp [retryLoop, h0]
    | succ m =>
      have hrec := ih (i + 1) (d * 2) (Nat.succ_pos m) (fun j hj => by
        have e : i + 1 + j = i + (j + 1) := by omega
        rw [e]; exact hout (j + 1) (by omega))
      have hlist : (List.range (m + 1)).map (fun k => d * 2 ^ k)
          = d :: (List.range m).map (fun k => d * 2 * 2 ^ k) := by
        rw [List.range_succ_eq_map, List.map_cons, List.map_map]
        refine congrArg₂ _ (by simp) (List.map_congr_left ?_)
        intro k _
        simp only [Function.comp_apply, pow_succ]
        ring
      calc retryLoop out i (m + 1 + 1) d
          = ((retryLoop out (i + 1) (m + 1) (d * 2)).1,
              d :: (retryLoop out (i + 1) (m + 1) (d * 2)).2.1,
              (retryLoop out (i + 1) (m + 1) (d * 2)).2.2 + 1) := by
            rw [retryLoop_succ_eq, h0]
            rfl
        _ = (.raised, d :: (List.range m).map (fun k => d * 2 * 2 ^ k), m + 1 + 1) := by
            rw [hrec]
            simp
        _ = (.raised, (List.range (m + 1 + 1 - 1)).map (fun k => d * 2 ^ k),
              m + 1 + 1) := by
            rw [Nat.succ_sub_one, hlist]

lemma retryLoop_success (out : Nat → Option α) (p : α) :
    ∀ (left i d : Nat), 0 < left → (∀ j, j < left - 1 → out (i + j) = none) →
      out (i + (left - 1)) = some p →
      (retryLoop out i left d).1 = .success p := by
  intro left
  induction left with
  | zero => intro i d h _ _; exact absurd h (lt_irrefl 0)
  | succ l ih =>
    intro i d _ hpre hsucc
    cases l with
    | zero =>
      have h : out i = some p := by simpa using hsucc
      simp [retryLoop, h]
    | succ m =>
      have h0 : out i = none := by simpa using hpre 0 (by omega)
      have hrec := ih (i + 1) (d * 2) (Nat.succ_pos m)
        (fun j hj => by
          have e : i + 1 + j = i + (j + 1) := by omega
          rw [e]; exact hpre (j + 1) (by omega))
        (by
          have e : i + 1 + (m + 1 - 1) = i + (m + 1 + 1 - 1) := by omega
          rw [e]; exact hsucc)
      simp only [retryLoop, h0]
      rw [if_neg (Nat.succ_ne_zero m)]
      exact hrec

lemma delays_strictMono (d m : Nat) (hd : 0 < d) :
    ((List.range m).map (fun k => d * 2 ^ k)).Pairwise (· < ·) := by
  rw [List.pairwise_map]
  refine (List.pairwise_lt_range m).imp ?_
  intro a b hab
  exact mul_lt_mul_of_pos_left (Nat.pow_lt_pow_right (show 1 < 2 by norm_num) hab) hd

/-- C4: with `max_retries = N` attempts and base delay `d`, `N` consecutive
transient failures make exactly `N` fetch attempts, sleeping between them the
`N-1` delays `d, 2d, 4d, ...` (strictly increasing, doubling each time), and
then re-raise the error to the caller (permanent failure); `N-1` failures
followed by a success at the last attempt return the fetched page with no
permanent failure. -/
theorem c4_retry_backoff (α : Type) (N d : Nat) (hN : 0 < N) (hd : 0 < d)
    (outF outS : Nat → Option α) (p : α)
    (hF : ∀ j, j < N → outF j = none)
    (hS : ∀ j, j < N - 1 → outS j = none) (hSN : outS (N - 1) = some p) :
    getdata_with_retry outF N d
        = (.raised, (List.range (N - 1)).map (fun k => d * 2 ^ k), N) ∧
    ((List.range (N - 1)).map (fun k => d * 2 ^ k)).Pairwise (· < ·) ∧
    (getdata_with_retry outS N d).1 = .success p := by
  refine ⟨?_, delays_strictMono d (N - 1) hd, ?_⟩
  · exact retryLoop_allFail outF N 0 d hN (fun j hj => by simpa using hF j hj)
  · exact retryLoop_success outS p N 0 d hN (fun j hj => by simpa using hS j hj)
      (by simpa using hSN)

/-- Witness for C4 at the source defaults `max_retries = 3`, `retry_delay = 5`:
three failures sleep 5 then 10 and raise; two failures then a success return
the page. -/
theorem c4_retry_backoff_witness :
    getdata_with_retry (fun _ => (none : Option Nat)) 3 5
        = (.raised, (List.range 2).map (fun k => 5 * 2 ^ k), 3) ∧
    ((List.range 2).map (fun k => 5 * 2 ^ k)).Pairwise (· < ·) ∧
    (getdata_with_retry (fun i => if i < 2 then none else some 42) 3 5).1
        = .success 42 :=
  c4_retry_backoff Nat 3 5 (by decide) (by decide) (fun _ => none)
    (fun i => if i < 2 then none else some 42) 42 (fun _ _ => rfl)
    (fun _ hj => if_pos hj) (if_neg (by decide))

lemma crawlLoop_succ_eq (fetch : String → Option Page) (arch : Nat → Option String)
    (mp : Option Nat) (qid : Int) (now : Nat) (fuel : Nat) (url : String)
    (pn : Nat) (ck : Option Progress) (db : DB) (tot : Nat) :
    crawlLoop fetch arch mp qid now (fuel + 1) url pn ck db tot
      = match fetch url with
        | none => ⟨some ⟨pn, url, qid, now⟩, db, .errorExit, [url], tot⟩
        | some pg =>
          let res := processPage arch qid now db pg.listings
          let ck1 : Option Progress := some ⟨pn, url, qid, now⟩
          let tot1 := tot + res.2.1
          if maxPagesReached mp pn then
            ⟨ck1, res.1, .maxPages, [url], tot1⟩
          else
            match pg.next with
            | none => ⟨ck1, res.1, .noMorePages, [url], tot1⟩
            | some nextUrl =>
              let r := crawlLoop fetch arch mp qid now fuel nextUrl
                (pn + 1) ck1 res.1 tot1
              { r with fetched := url :: r.fetched } := rfl

lemma crawlLoop_fetched_head (fetch : String → Option Page) (arch : Nat → Option String)
    (mp : Option Nat) (qid : Int) (now : Nat) (fuel : Nat) (url : String)
    (pn : Nat) (ck : Option Progress) (db : DB) (tot : Nat) :
    (crawlLoop fetch arch mp qid now (fuel + 1) url pn ck db tot).fetched.head?
      = some url := by
  rw [crawlLoop_succ_eq]
  cases hf : fetch url with
  | none => rfl
  | some pg =>
    dsimp only
    by_cases hmp : maxPagesReached mp pn
    · rw [if_pos hmp]
      rfl
    · rw [if_neg hmp]
      cases pg.next with
      | none => rfl
      | some nextUrl => rfl

lemma crawlLoop_exit_saved (fetch : String → Option Page) (arch : Nat → Option String)
    (mp : Option Nat) (qid : Int) (now : Nat) :
    ∀ (fuel : Nat) (url : String) (pn : Nat) (ck : Option Progress) (db : DB) (tot : Nat),
      (crawlLoop fetch arch mp qid now fuel url pn ck db tot).exit ≠ .fuelOut →
      ∃ pg u, (crawlLoop fetch arch mp qid now fuel url pn ck db tot).ckpt
          = some ⟨pg, u, qid, now⟩ := by
  intro fuel
  induction fuel with
  | zero => intro url pn ck db tot h; exact absurd rfl h
  | succ f ih =>
    intro url pn ck db tot h
    rw [crawlLoop_succ_eq] at h ⊢
    cases hf : fetch url with
    | none => exact ⟨pn, url, rfl⟩
    | some pg =>
      rw [hf] at h
      dsimp only at h ⊢
      by_cases hmp : maxPagesReached mp pn
      · rw [if_pos hmp]
        exact ⟨pn, url, rfl⟩
      · rw [if_neg hmp] at h ⊢
        cases hn : pg.next with
        | none => exact ⟨pn, url, rfl⟩
        | some nextUrl =>
          rw [hn] at h
          exact ih nextUrl (pn + 1) (some ⟨pn, url, qid, now⟩)
            (processPage arch qid now db pg.listings).1
            (tot + (processPage arch qid now db pg.listings).2.1) h

/-- A two-page site with no listings: page "u1" links to "u2", "u2" is the
last page. -/
def twoPageSite : String → Option Page := fun u =>
  if u = "u1" then some ⟨[], some "u2"⟩
  else if u = "u2" then some ⟨[], none⟩
  else none

/-- C2: the claim is right and the code is wrong.  On an error exit (here:
retries exhausted on the very first page, `fetch = none` everywhere) the
`except` handler does save the checkpoint for the failed page before
re-raising — but the `finally` block (lines 331-335) then removes the
progress file unconditionally, on the error path too, so no checkpoint
survives the run and a rerun starts from page 1.  This contradicts the
code's own comment ("Clean up progress file on successful completion") and
the explicit "Saving progress before exiting..." handler it nullifies. -/
theorem c2_checkpoint_deleted_on_error_exit :
    (runMain (fun _ => none) (fun _ => none) none 7 99 "start" none ⟨[], 1⟩ 10).exit
        = .errorExit ∧
    (runMain (fun _ => none) (fun _ => none) none 7 99 "start" none ⟨[], 1⟩
        10).ckptAtLoopExit = some ⟨1, "start", 7, 99⟩ ∧
    (runMain (fun _ => none) (fun _ => none) none 7 99 "start" none ⟨[], 1⟩
        10).finalCkpt = none := by
  refine ⟨?_, ?_, ?_⟩ <;> with_unfolding_all rfl

/-- C3 (amended): a run that exhausts pagination (no next-page link) leaves
no checkpoint on disk, and a run stopped by the max-pages limit also leaves
none: the `finally` block removes the progress file on both termination
paths (the loop itself did save a checkpoint for the last processed page,
carrying the selected query's id, before the `finally` deleted it). -/
theorem c3_termination_clears_checkpoint (fetch : String → Option Page)
    (arch : Nat → Option String) (mp : Option Nat) (qid : Int) (now : Nat)
    (fresh : String) (pf : Option Progress) (db0 : DB) (fuel : Nat)
    (h : (runMain fetch arch mp qid now fresh pf db0 fuel).exit = .noMorePages ∨
         (runMain fetch arch mp qid now fresh pf db0 fuel).exit = .maxPages) :
    (runMain fetch arch mp qid now fresh pf db0 fuel).finalCkpt = none ∧
    ∃ pg u, (runMain fetch arch mp qid now fresh pf db0 fuel).ckptAtLoopExit
        = some ⟨pg, u, qid, now⟩ := by
  refine ⟨rfl, ?_⟩
  have hne : (crawlLoop fetch arch mp qid now fuel
      (resumeDecision pf qid fresh).1 (resumeDecision pf qid fresh).2.1
      (resumeDecision pf qid fresh).2.2 db0 0).exit ≠ .fuelOut := by
    rcases h with h | h
    · exact fun hfo => by
        rw [show (runMain fetch arch mp qid now fresh pf db0 fuel).exit
            = (crawlLoop fetch arch mp qid now fuel (resumeDecision pf qid fresh).1
                (resumeDecision pf qid fresh).2.1 (resumeDecision pf qid fresh).2.2
                db0 0).exit from rfl] at h
        rw [hfo] at h
        cases h
    · exact fun hfo => by
        rw [show (runMain fetch arch mp qid now fresh pf db0 fuel).exit
            = (crawlLoop fetch arch mp qid now fuel (resumeDecision pf qid fresh).1
                (resumeDecision pf qid fresh).2.1 (resumeDecision pf qid fresh).2.2
                db0 0).exit from rfl] at h
        rw [hfo] at h
        cases h
  exact crawlLoop_exit_saved fetch arch mp qid now fuel
    (resumeDecision pf qid fresh).1 (resumeDecision pf qid fresh).2.1
    (resumeDecision pf qid fresh).2.2 db0 0 hne

/-- Witness for C3: a run over `twoPageSite` with no max-pages limit ends by
exhausting pagination; the theorem applies and the progress file is gone. -/
theorem c3_termination_clears_checkpoint_witness :
    (runMain twoPageSite (fun _ => none) none 7 99 "u1" none ⟨[], 1⟩ 10).finalCkpt
        = none ∧
    ∃ pg u, (runMain twoPageSite (fun _ => none) none 7 99 "u1" none ⟨[], 1⟩
        10).ckptAtLoopExit = some ⟨pg, u, 7, 99⟩ :=
  c3_termination_clears_checkpoint twoPageSite (fun _ => none) none 7 99 "u1"
    none ⟨[], 1⟩ 10 (Or.inl (by with_unfolding_all rfl))

/-- C3 counterexample: with `max_pages = 1` on `twoPageSite` the run stops at
the max-pages limit while a next page exists, and the progress file is
removed all the same — the claim's "leaves its checkpoint in place" fails. -/
theorem c3_maxpages_counterexample :
    (runMain twoPageSite (fun _ => none) (some 1) 7 99 "u1" none ⟨[], 1⟩ 10).exit
        = .maxPages ∧
    (runMain twoPageSite (fun _ => none) (some 1) 7 99 "u1" none ⟨[], 1⟩
        10).finalCkpt = none := by
  refine ⟨?_, ?_⟩ <;> with_unfolding_all rfl

/-- C5: if a checkpoint exists and its `query_id` equals the selected query's
id, the run starts at the checkpoint's `(last_url, last_page)` and the first
page actually fetched is `last_url`; if no checkpoint exists, or its
`query_id` differs, the run starts fresh at page 1 with the query url (the
first fetch is the fresh url) and the stale progress file is removed. -/
theorem c5_resume_correctness (fetch : String → Option Page)
    (arch : Nat → Option String) (mp : Option Nat) (qid : Int) (now : Nat)
    (fresh : String) (pf : Option Progress) (db0 : DB) (fuel : Nat)
    (hfuel : 0 < fuel) :
    (∀ p : Progress, pf = some p → p.query_id = qid →
      (runMain fetch arch mp qid now fresh pf db0 fuel).startUrl = p.last_url ∧
      (runMain fetch arch mp qid now fresh pf db0 fuel).startPage = p.last_page ∧
      (runMain fetch arch mp qid now fresh pf db0 fuel).fetched.head?
          = some p.last_url) ∧
    ((pf = none ∨ ∃ p : Progress, pf = some p ∧ p.query_id ≠ qid) →
      (runMain fetch arch mp qid now fresh pf db0 fuel).startUrl = fresh ∧
      (runMain fetch arch mp qid now fresh pf db0 fuel).startPage = 1 ∧
      (runMain fetch arch mp qid now fresh pf db0 fuel).ckptAfterResume = none ∧
      (runMain fetch arch mp qid now fresh pf db0 fuel).fetched.head?
          = some fresh) := by
  obtain ⟨f, rfl⟩ : ∃ f, fuel = f + 1 := ⟨fuel - 1, by omega⟩
  constructor
  · rintro p rfl hq
    refine ⟨by simp [runMain, resumeDecision, hq], by simp [runMain, resumeDecision, hq], ?_⟩
    simp only [runMain, resumeDecision, if_pos hq]
    exact crawlLoop_fetched_head fetch arch mp qid now f p.last_url
      p.last_page (some p) db0 0
  · rintro (rfl | ⟨p, rfl, hq⟩)
    · refine ⟨by simp [runMain, resumeDecision], by simp [runMain, resumeDecision],
        by simp [runMain, resumeDecision], ?_⟩
      simp only [runMain, resumeDecision]
      exact crawlLoop_fetched_head fetch arch mp qid now f fresh 1 none db0 0
    · refine ⟨by simp [runMain, resumeDecision, hq], by simp [runMain, resumeDecision, hq],
        by simp [runMain, resumeDecision, hq], ?_⟩
      simp only [runMain, resumeDecision, if_neg hq]
      exact crawlLoop_fetched_head fetch arch mp qid now f fresh 1 none db0 0

/-- Witness for C5: resuming on `twoPageSite` from a checkpoint at page 3 of
query 7 starts at its saved url "u2", not page 1. -/
theorem c5_resume_correctness_witness :
    (runMain twoPageSite (fun _ => none) none 7 99 "fresh"
        (some ⟨3, "u2", 7, 50⟩) ⟨[], 1⟩ 5).startUrl = "u2" ∧
    (runMain twoPageSite (fun _ => none) none 7 99 "fresh"
        (some ⟨3, "u2", 7, 50⟩) ⟨[], 1⟩ 5).startPage = 3 ∧
    (runMain twoPageSite (fun _ => none) none 7 99 "fresh"
        (some ⟨3, "u2", 7, 50⟩) ⟨[], 1⟩ 5).fetched.head? = some "u2" :=
  (c5_resume_correctness twoPageSite (fun _ => none) none 7 99 "fresh"
      (some ⟨3, "u2", 7, 50⟩) ⟨[], 1⟩ 5 (by decide)).1
    ⟨3, "u2", 7, 50⟩ rfl rfl

lemma find_addr_none (l : List PropRow) (a : String) (h : ∀ r ∈ l, r.address ≠ a) :
    l.find? (fun r => r.address = a) = none := by
  rw [List.find?_eq_none]
  intro x hx
  simp [h x hx]

/-- C8: the UPDATE branch of `upsert_property` never touches `is_filtered`,
`filtered_at` or `price_total_usd`: after an upsert that hit an existing
record (`is_new = False`), every stored record keeps its id, address and
those three filter fields exactly as before. -/
theorem c8_upsert_never_writes_filter_fields (db : DB) (pd : PropertyData)
    (qid : Int) (now : Nat) (pid : Nat) (db1 : DB)
    (h : upsert_property db pd qid now = .ok (false, pid, db1)) :
    List.Forall₂ (fun r rr : PropRow =>
        rr.id = r.id ∧ rr.address = r.address ∧ rr.is_filtered = r.is_filtered ∧
        rr.filtered_at = r.filtered_at ∧ rr.price_total_usd = r.price_total_usd)
      db.rows db1.rows := by
  unfold upsert_property at h
  split at h
  · exact absurd h (by simp)
  · rename_i addr heqaddr
    split at h
    · exact absurd h (by simp)
    · split at h
      · injection h with h'
        injection h' with hb hrest
        injection hrest with hp hdb
        subst hdb
        dsimp only
        rw [List.forall₂_map_right_iff, List.forall₂_same]
        intro r _
        by_cases hra : r.address = addr
        · rw [if_pos hra]
          exact ⟨rfl, rfl, rfl, rfl, rfl⟩
        · rw [if_neg hra]
          exact ⟨rfl, rfl, rfl, rfl, rfl⟩
      · exact absurd h (by simp)

/-- An existing stored record with nontrivial filter fields, used as the
concrete input of the frame-effect witness. -/
def frameRow : PropRow :=
  { id := 1, address := "Aguero al 1700", currency := some "USD",
    price := some 900, price_dollars := some 900, expenses := some 10,
    size := some 80, bedrooms := some 2, bathrooms := some 1,
    listing_url := some "l", website := some "w", url := some "u",
    description := none, timestamp := 3, last_updated := 3,
    query_id := some 1, price_total_usd := some 910, is_filtered := true,
    filtered_at := some 4, archived_path := some "ap" }

/-- Fresh crawl data for the same address as `frameRow`, with different
mutable fields. -/
def framePd : PropertyData :=
  { address := some "Aguero al 1700", currency := some "$",
    price := some 150000, expenses := some 0, size := some 95,
    bedrooms := some 3, bathrooms := some 2, listing_url := some "l2",
    website := some "w", url := some "u2", description := some "d",
    timestamp := some 9 }

/-- The table after upserting `framePd` over `frameRow`. -/
def frameDb1 : DB := ⟨[updateRow framePd 7 99 frameRow], 2⟩

/-- Witness for C8: upserting `framePd` over `frameRow` returns
`is_new = False` and preserves id, address and the three filter fields. -/
theorem c8_upsert_never_writes_filter_fields_witness :
    upsert_property ⟨[frameRow], 2⟩ framePd 7 99 = .ok (false, 1, frameDb1) ∧
    List.Forall₂ (fun r rr : PropRow =>
        rr.id = r.id ∧ rr.address = r.address ∧ rr.is_filtered = r.is_filtered ∧
        rr.filtered_at = r.filtered_at ∧ rr.price_total_usd = r.price_total_usd)
      [frameRow] frameDb1.rows :=
  ⟨by with_unfolding_all rfl,
   c8_upsert_never_writes_filter_fields ⟨[frameRow], 2⟩ framePd 7 99 1 frameDb1
     (by with_unfolding_all rfl)⟩

/-- C7 (amended): the coercion block turns the `'N/A'` sentinel into a null
for `size`, `bedrooms` and `bathrooms`, but into the number `0` for
`expenses` (the claim's "never zero" fails on that field); and a listing
with such absent fields, as long as its address is non-empty, is still
upserted as a new record whose stored optional fields are exactly the
coerced values — it is not dropped. -/
theorem c7_na_coercion_and_upsert (arch : Nat → Option String) (db : DB)
    (L : RawListing) (qid : Int) (now : Nat) (haddr : L.address ≠ "")
    (hfresh : ∀ r ∈ db.rows, r.address ≠ L.address) :
    ((L.size = .NA → (coerceListing L).size = none) ∧
     (L.bedrooms = .NA → (coerceListing L).bedrooms = none) ∧
     (L.bathrooms = .NA → (coerceListing L).bathrooms = none) ∧
     (L.expenses = .NA → (coerceListing L).expenses = some 0)) ∧
    ∃ db1, processListing arch db L qid now = .ok (db1, true, db.nextId) ∧
      ∃ row ∈ db1.rows, row.address = L.address ∧
        row.expenses = (coerceListing L).expenses ∧
        row.size = (coerceListing L).size ∧
        row.bedrooms = (coerceListing L).bedrooms ∧
        row.bathrooms = (coerceListing L).bathrooms := by
  refine ⟨⟨fun h => by simp [coerceListing, h], fun h => by simp [coerceListing, h],
    fun h => by simp [coerceListing, h], fun h => by simp [coerceListing, h]⟩, ?_⟩
  have hfind : db.rows.find? (fun r => r.address = L.address) = none :=
    find_addr_none db.rows L.address hfresh
  have hup : upsert_property db (coerceListing L) qid now
      = .ok (true, db.nextId,
          ⟨db.rows ++ [insertRow (coerceListing L) L.address qid now db.nextId],
           db.nextId + 1⟩) := by
    unfold upsert_property
    dsimp only [coerceListing]
    rw [if_neg haddr, hfind]
  have hid : (insertRow (coerceListing L) L.address qid now db.nextId).id
      = db.nextId := rfl
  cases harch : arch db.nextId with
  | none =>
    refine ⟨⟨db.rows ++ [insertRow (coerceListing L) L.address qid now db.nextId],
      db.nextId + 1⟩, ?_, ?_⟩
    · unfold processListing
      rw [hup]
      dsimp only
      rw [harch]
      rfl
    · exact ⟨insertRow (coerceListing L) L.address qid now db.nextId,
        by simp, rfl, rfl, rfl, rfl, rfl⟩
  | some path =>
    refine ⟨update_archived_path
        ⟨db.rows ++ [insertRow (coerceListing L) L.address qid now db.nextId],
         db.nextId + 1⟩ db.nextId path, ?_, ?_⟩
    · unfold processListing
      rw [hup]
      dsimp only
      rw [harch]
      rfl
    · refine ⟨{ insertRow (coerceListing L) L.address qid now db.nextId with
          archived_path := some path }, ?_, rfl, rfl, rfl, rfl, rfl⟩
      unfold update_archived_path
      dsimp only
      refine List.mem_map.mpr
        ⟨insertRow (coerceListing L) L.address qid now db.nextId, by simp, ?_⟩
      rw [if_pos hid]

/-- A parsed listing whose expenses and bedrooms regexes did not match
(`'N/A'`), used as concrete input for C7. -/
def naListing : RawListing :=
  { address := "Aguero al 1700", expenses := .NA, size := .num 95,
    bedrooms := .NA, bathrooms := .num 2, currency := "$",
    price := some 150000, listing_url := "l", website := "argenprop",
    url := "u", description := none, timestamp := 10 }

/-- Witness for C7 on `naListing` against an empty table with an archiver
that succeeds. -/
theorem c7_na_coercion_and_upsert_witness :
    ((naListing.size = .NA → (coerceListing naListing).size = none) ∧
     (naListing.bedrooms = .NA → (coerceListing naListing).bedrooms = none) ∧
     (naListing.bathrooms = .NA → (coerceListing naListing).bathrooms = none) ∧
     (naListing.expenses = .NA → (coerceListing naListing).expenses = some 0)) ∧
    ∃ db1, processListing (fun _ => some "p") ⟨[], 1⟩ naListing 7 99
        = .ok (db1, true, 1) ∧
      ∃ row ∈ db1.rows, row.address = naListing.address ∧
        row.expenses = (coerceListing naListing).expenses ∧
        row.size = (coerceListing naListing).size ∧
        row.bedrooms = (coerceListing naListing).bedrooms ∧
        row.bathrooms = (coerceListing naListing).bathrooms :=
  c7_na_coercion_and_upsert (fun _ => some "p") ⟨[], 1⟩ naListing 7 99
    (by decide) (by simp)

/-- C7 counterexample: `'N/A'` expenses are coerced to the number `0`
(`else: listing_data['expenses'] = 0`), not to a null — the claim's "never
zero" is false for the expenses field. -/
theorem c7_expenses_na_counterexample :
    naListing.expenses = .NA ∧
    (coerceListing naListing).expenses = some 0 ∧
    (some 0 : Option ℚ) ≠ none :=
  ⟨rfl, by with_unfolding_all rfl, by simp⟩

/-- C9: for a listing whose upsert returns `is_new = True` and for which the
Archiver returns a relative path for the new property id, the crawl step
stores that path via `update_archived_path`: the resulting table contains the
newly persisted record (same id and address) with `archived_path` set to the
returned path. -/
theorem c9_archived_path_stored (arch : Nat → Option String) (db dbu : DB)
    (L : RawListing) (qid : Int) (now : Nat) (pid : Nat) (path : String)
    (hup : upsert_property db (coerceListing L) qid now = .ok (true, pid, dbu))
    (hp : arch pid = some path) :
    processListing arch db L qid now
        = .ok (update_archived_path dbu pid path, true, pid) ∧
    ∃ row ∈ (update_archived_path dbu pid path).rows,
      row.id = pid ∧ row.archived_path = some path ∧ row.address = L.address := by
  constructor
  · unfold processListing
    rw [hup]
    dsimp only
    rw [hp]
    rfl
  · unfold upsert_property at hup
    dsimp only [coerceListing] at hup
    split at hup
    · exact absurd hup (by simp)
    · split at hup
      · exact absurd hup (by simp)
      · injection hup with h'
        injection h' with hb hrest
        injection hrest with hpid hdb
        subst hdb
        subst hpid
        refine ⟨{ insertRow (coerceListing L) L.address qid now db.nextId with
          archived_path := some path }, ?_, rfl, rfl, rfl⟩
        unfold update_archived_path
        dsimp only
        refine List.mem_map.mpr
          ⟨insertRow (coerceListing L) L.address qid now db.nextId,
           List.mem_append.mpr (Or.inr (List.mem_singleton.mpr rfl)), ?_⟩
        dsimp only
        split
        · rfl
        · rename_i hcontra
          exact absurd rfl hcontra

/-- The table produced by inserting the coerced `naListing` into an empty
table; concrete input of the C9 witness. -/
def c9Db1 : DB := ⟨[insertRow (coerceListing naListing) "Aguero al 1700" 7 99 1], 2⟩

/-- Witness for C9: archiving the freshly inserted `naListing` record stores
the Archiver's relative path on it. -/
theorem c9_archived_path_stored_witness :
    processListing (fun _ => some "links/1_Aguero_20250101/index.html")
        ⟨[], 1⟩ naListing 7 99
      = .ok (update_archived_path c9Db1 1 "links/1_Aguero_20250101/index.html",
          true, 1) ∧
    ∃ row ∈ (update_archived_path c9Db1 1
        "links/1_Aguero_20250101/index.html").rows,
      row.id = 1 ∧ row.archived_path = some "links/1_Aguero_20250101/index.html" ∧
      row.address = naListing.address :=
  c9_archived_path_stored (fun _ => some "links/1_Aguero_20250101/index.html")
    ⟨[], 1⟩ c9Db1 naListing 7 99 1 "links/1_Aguero_20250101/index.html"
    (by with_unfolding_all rfl) rfl

/-- C1: upserting a fresh non-empty address inserts once (`is_new = True`)
and a second upsert of the same address with different mutable fields
updates in place (`is_new = False`), leaving exactly one stored record for
that address whose `timestamp` is the one fixed by the first insert and
whose mutable fields (currency, price, price_dollars, expenses, size,
bedrooms, bathrooms, listing_url, website, url, description) come from the
second call's input. -/
theorem c1_upsert_idempotent (db : DB) (pd1 pd2 : PropertyData) (q1 q2 : Int)
    (t1 t2 : Nat) (a : String)
    (ha1 : pd1.address = some a) (ha2 : pd2.address = some a) (hne : a ≠ "")
    (hfresh : ∀ r ∈ db.rows, r.address ≠ a) :
    ∃ db1 db2,
      upsert_property db pd1 q1 t1 = .ok (true, db.nextId, db1) ∧
      upsert_property db1 pd2 q2 t2 = .ok (false, db.nextId, db2) ∧
      (db2.rows.filter (fun r => r.address = a)).length = 1 ∧
      ∀ r ∈ db2.rows, r.address = a →
        r.timestamp = pd1.timestamp.getD t1 ∧
        r.currency = pd2.currency ∧ r.price = pd2.price ∧
        r.price_dollars = calculate_price_dollars pd2.currency pd2.price ∧
        r.expenses = pd2.expenses ∧ r.size = pd2.size ∧
        r.bedrooms = pd2.bedrooms ∧ r.bathrooms = pd2.bathrooms ∧
        r.listing_url = pd2.listing_url ∧ r.website = pd2.website ∧
        r.url = pd2.url ∧ r.description = pd2.description := by
  have hfind1 : db.rows.find? (fun r => r.address = a) = none :=
    find_addr_none db.rows a hfresh
  refine ⟨⟨db.rows ++ [insertRow pd1 a q1 t1 db.nextId], db.nextId + 1⟩,
    ⟨(db.rows ++ [insertRow pd1 a q1 t1 db.nextId]).map
        (fun r => if r.address = a then updateRow pd2 q2 t2 r else r),
      db.nextId + 1⟩, ?_, ?_, ?_, ?_⟩
  · unfold upsert_property
    rw [ha1]
    dsimp only
    rw [if_neg hne, hfind1]
  · have hfind2 : (db.rows ++ [insertRow pd1 a q1 t1 db.nextId]).find?
        (fun r => r.address = a) = some (insertRow pd1 a q1 t1 db.nextId) := by
      rw [List.find?_append, hfind1]
      have : (decide ((insertRow pd1 a q1 t1 db.nextId).address = a)) = true :=
        decide_eq_true rfl
      simp [List.find?, this]
    unfold upsert_property
    rw [ha2]
    dsimp only
    rw [if_neg hne, hfind2]
    rfl
  · dsimp only
    rw [List.map_append, List.filter_append]
    have h1 : ((db.rows.map
        (fun r => if r.address = a then updateRow pd2 q2 t2 r else r)).filter
          (fun r => r.address = a)) = [] := by
      rw [List.filter_eq_nil_iff]
      intro x hx
      obtain ⟨r0, hr0, rfl⟩ := List.mem_map.mp hx
      rw [if_neg (hfresh r0 hr0)]
      simp [hfresh r0 hr0]
    have h2 : ([insertRow pd1 a q1 t1 db.nextId].map
        (fun r => if r.address = a then updateRow pd2 q2 t2 r else r))
          = [updateRow pd2 q2 t2 (insertRow pd1 a q1 t1 db.nextId)] := by
      simp only [List.map_cons, List.map_nil]
      congr 1
      split
      · rfl
      · rename_i hc
        exact absurd rfl hc
    rw [h1, h2]
    have h3 : (decide ((updateRow pd2 q2 t2
        (insertRow pd1 a q1 t1 db.nextId)).address = a)) = true := decide_eq_true rfl
    simp [List.filter, h3]
  · intro r hr hra
    dsimp only at hr
    rw [List.map_append] at hr
    rcases List.mem_append.mp hr with hr | hr
    · obtain ⟨r0, hr0, rfl⟩ := List.mem_map.mp hr
      rw [if_neg (hfresh r0 hr0)] at hra
      exact absurd hra (hfresh r0 hr0)
    · obtain ⟨r0, hr0, rfl⟩ := List.mem_map.mp hr
      rw [List.mem_singleton] at hr0
      subst hr0
      split
      · exact ⟨rfl, rfl, rfl, rfl, rfl, rfl, rfl, rfl, rfl, rfl, rfl, rfl⟩
      · rename_i hc
        exact absurd rfl hc

/-- First-sighting crawl data for the C1 witness. -/
def idemPd1 : PropertyData :=
  { address := some "Aguero al 1700", currency := some "USD",
    price := some 900, expenses := some 50, size := some 80,
    bedrooms := some 2, bathrooms := some 1, listing_url := some "l1",
    website := some "w", url := some "u1", description := some "d1",
    timestamp := some 5 }

/-- Second-sighting crawl data for the same address with different mutable
fields, for the C1 witness. -/
def idemPd2 : PropertyData :=
  { address := some "Aguero al 1700", currency := some "$",
    price := some 150000, expenses := some 0, size := some 95,
    bedrooms := some 3, bathrooms := some 2, listing_url := some "l2",
    website := some "w", url := some "u2", description := some "d2",
    timestamp := some 77 }

/-- Witness for C1: two consecutive upserts of "Aguero al 1700" into an
empty table. -/
theorem c1_upsert_idempotent_witness :
    ∃ db1 db2,
      upsert_property ⟨[], 1⟩ idemPd1 3 10 = .ok (true, 1, db1) ∧
      upsert_property db1 idemPd2 4 20 = .ok (false, 1, db2) ∧
      (db2.rows.filter (fun r => r.address = "Aguero al 1700")).length = 1 ∧
      ∀ r ∈ db2.rows, r.address = "Aguero al 1700" →
        r.timestamp = idemPd1.timestamp.getD 10 ∧
        r.currency = idemPd2.currency ∧ r.price = idemPd2.price ∧
        r.price_dollars = calculate_price_dollars idemPd2.currency idemPd2.price ∧
        r.expenses = idemPd2.expenses ∧ r.size = idemPd2.size ∧
        r.bedrooms = idemPd2.bedrooms ∧ r.bathrooms = idemPd2.bathrooms ∧
        r.listing_url = idemPd2.listing_url ∧ r.website = idemPd2.website ∧
        r.url = idemPd2.url ∧ r.description = idemPd2.description :=
  c1_upsert_idempotent ⟨[], 1⟩ idemPd1 idemPd2 3 4 10 20 "Aguero al 1700"
    rfl rfl (by decide) (by simp)
